import Mathlib

/-!
Verification development for the batch scheduler of the `sage` repository:
the priority queue, the token-bucket rate limiter and the per-item
progress/state tracking implemented in `src/sage/services/queue.py`,
with the data model from `src/sage/models/queue.py`,
`src/sage/utils/progress.py` and `src/sage/config/settings.py`.

Times are modelled as natural numbers (scheduler timestamps) and rationals
(event-loop clock readings and token levels); percentages are natural
numbers (the pydantic models validate them into `[0, 100]`, recorded here
as hypotheses where a claim needs the bound).
-/

namespace Sage

/-- Lifecycle states for a queue item (`QueueStatus` in `models/queue.py`). -/
inductive QueueStatus where
  | queued
  | processing
  | completed
  | failed
deriving DecidableEq, Repr

/-- Lifecycle stages for ingesting a video (`ProcessingStage` in `utils/progress.py`). -/
inductive ProcessingStage where
  | validating
  | downloading
  | transcribing
  | summarizing
  | storing
  | complete
  | failed
deriving DecidableEq, Repr

/-- In-memory queue item (`QueueItem` in `models/queue.py`).
Timestamps are `Option Nat`; `video_url` is the string form of the URL. -/
structure QueueItem where
  video_url : String
  status : QueueStatus
  priority : Int
  manual_tags : List String
  summarize : Bool
  summary_length : Nat
  remove_timestamps : Bool
  force : Bool
  current_stage : Option ProcessingStage
  stage_progress_percent : Nat
  overall_progress_percent : Nat
  retry_count : Nat
  max_retries : Nat
  error_message : Option String
  error_type : Option String
  message : Option String
  queued_at : Nat
  started_at : Option Nat
  completed_at : Option Nat
deriving DecidableEq, Repr

/-- Structured progress payload (`ProgressUpdate` in `utils/progress.py`). -/
structure ProgressUpdate where
  stage : ProcessingStage
  stage_progress : Nat
  overall_progress : Nat
  message : String
  video_url : String
  estimated_time_remaining : Option Nat
deriving DecidableEq, Repr

/-- Outcome of one invocation of the injected ingestion handler:
it either returns normally or raises an exception carrying a message
and an exception class name. -/
inductive HandlerOutcome where
  | success
  | failure (message : String) (errType : String)
deriving DecidableEq, Repr

/-- Observable behaviour of one handler invocation: the progress-callback
invocations it performs, in order, followed by its outcome.  The scheduler
is single-threaded, so the callbacks are applied sequentially. -/
structure HandlerRun where
  updates : List ProgressUpdate
  outcome : HandlerOutcome
deriving DecidableEq, Repr

/-- The identifier-to-item dictionary `QueueService._items`. -/
abbrev ItemsMap : Type := String → Option QueueItem

/-- An entry of the asyncio priority queue: `(-priority, sequence, item)`. -/
abbrev Entry : Type := Int × Nat × QueueItem

/-- State owned by `QueueService` that the queue operations touch:
the identifier-to-item map, the priority-queue contents (insertion order)
and the sequence counter. -/
structure QueueServiceState where
  _items : ItemsMap
  _priority_queue : List Entry
  _sequence : Nat

/-- Request data for one `add_to_queue` call: the URL, the priority, the
keyword preferences, and the `datetime.now` reading taken at the start. -/
structure EnqueueRequest where
  url : String
  priority : Int
  manual_tags : List String
  summarize : Bool
  summary_length : Nat
  remove_timestamps : Bool
  force : Bool
  now : Nat
deriving DecidableEq, Repr

/-- The `QueueItem(...)` construction performed by `QueueService.add_to_queue`:
explicit arguments from the request, every other field left at the
pydantic default. -/
def mkQueueItem (r : EnqueueRequest) : QueueItem where
  video_url := r.url
  status := QueueStatus.queued
  priority := r.priority
  manual_tags := r.manual_tags
  summarize := r.summarize
  summary_length := r.summary_length
  remove_timestamps := r.remove_timestamps
  force := r.force
  current_stage := none
  stage_progress_percent := 0
  overall_progress_percent := 0
  retry_count := 0
  max_retries := 3
  error_message := none
  error_type := none
  message := none
  queued_at := r.now
  started_at := none
  completed_at := none

/-- Dictionary store `self._items[url] = it`. -/
def setItem (m : ItemsMap) (url : String) (it : QueueItem) : ItemsMap :=
  fun k => if k = url then some it else m k

/-- Initial scheduler state built by `QueueService.__init__`: empty map,
empty queue, sequence counter 0. -/
def initState : QueueServiceState where
  _items := fun _ => none
  _priority_queue := []
  _sequence := 0

/-- The body of `QueueService.add_to_queue`: construct the item, increment
the sequence counter, push `(-priority, sequence, item)` and overwrite the
map entry for the URL.  Returns the new state and the constructed item. -/
def add_to_queue (s : QueueServiceState) (r : EnqueueRequest) :
    QueueServiceState × QueueItem :=
  let item := mkQueueItem r
  let seq := s._sequence + 1
  ({ _items := setItem s._items r.url item
     _priority_queue := s._priority_queue ++ [(-r.priority, seq, item)]
     _sequence := seq }, item)

/-- Fold a list of `add_to_queue` calls over a state. -/
def addAll (s : QueueServiceState) (reqs : List EnqueueRequest) : QueueServiceState :=
  reqs.foldl (fun st r => (add_to_queue st r).1) s

/-- The queue entries produced by a run of `add_to_queue` calls starting
from sequence counter `s0`: the k-th request pushes
`(-priority, s0 + k + 1, item)`.  Proved below (`addAll_queue`) to be
exactly what `addAll` appends to the priority queue. -/
def mkEntries : Nat → List EnqueueRequest → List Entry
  | _, [] => []
  | s0, r :: rs => (-r.priority, s0 + 1, mkQueueItem r) :: mkEntries (s0 + 1) rs

/-- The handler produced by `QueueService._progress_callback_for(video_url)`:
look the URL up in the map; if absent do nothing, otherwise store a copy
with the reported stage and stage progress, the overall progress raised to
`max(existing, reported)`, and the reported message. -/
def progress_callback (m : ItemsMap) (video_url : String) (update : ProgressUpdate) :
    ItemsMap :=
  match m video_url with
  | none => m
  | some current =>
      setItem m video_url
        { current with
          current_stage := some update.stage
          stage_progress_percent := update.stage_progress
          overall_progress_percent :=
            max current.overall_progress_percent update.overall_progress
          message := some update.message }

/-- Apply a sequence of progress-callback invocations for one URL. -/
def applyUpdates (m : ItemsMap) (video_url : String) (updates : List ProgressUpdate) :
    ItemsMap :=
  updates.foldl (fun st u => progress_callback st video_url u) m

/-- The `in_progress` copy built at the top of `QueueService._process_item`:
status PROCESSING, `started_at` set to now, stage VALIDATING, stage
progress reset to 0; every other field kept from the dequeued item. -/
def startProcessing (item : QueueItem) (now : Nat) : QueueItem :=
  { item with
    status := QueueStatus.processing
    started_at := some now
    current_stage := some ProcessingStage.validating
    stage_progress_percent := 0 }

/-- The `completed` copy built on handler success: status COMPLETED,
`completed_at` set, stage COMPLETE, both progress percentages forced
to 100; built from the `in_progress` snapshot. -/
def completeTransition (in_progress : QueueItem) (now : Nat) : QueueItem :=
  { in_progress with
    status := QueueStatus.completed
    completed_at := some now
    current_stage := some ProcessingStage.complete
    overall_progress_percent := 100
    stage_progress_percent := 100 }

/-- The `failed` copy built when the handler raises: status FAILED,
`completed_at` set, stage FAILED, error message and error type taken from
the exception; built from the `in_progress` snapshot. -/
def failTransition (in_progress : QueueItem) (message errType : String) (now : Nat) :
    QueueItem :=
  { in_progress with
    status := QueueStatus.failed
    completed_at := some now
    current_stage := some ProcessingStage.failed
    error_message := some message
    error_type := some errType }

/-- The body of `QueueService._process_item` acting on the items map.
Store the `in_progress` copy, let the handler apply its progress callbacks
to the live map, then store the terminal copy built from the `in_progress`
snapshot: `completeTransition` if the handler returned, `failTransition`
if it raised (the exception is caught, logged and not re-raised).
Rate-limiter acquisition happens before the handler runs and touches only
the limiter registry, modelled separately below. -/
def process_item (m : ItemsMap) (item : QueueItem) (run : HandlerRun)
    (now_start now_end : Nat) : ItemsMap :=
  let in_progress := startProcessing item now_start
  let m1 := setItem m item.video_url in_progress
  let m2 := applyUpdates m1 item.video_url run.updates
  match run.outcome with
  | HandlerOutcome.success =>
      setItem m2 item.video_url (completeTransition in_progress now_end)
  | HandlerOutcome.failure msg ty =>
      setItem m2 item.video_url (failTransition in_progress msg ty now_end)

/-- Tuple order on queue entries as Python's heap compares them:
lexicographically on `(-priority, sequence)`.  The third component is never
compared because sequence numbers are unique. -/
def keyLE (a b : Entry) : Prop :=
  a.1 < b.1 ∨ (a.1 = b.1 ∧ a.2.1 ≤ b.2.1)

instance : DecidableRel keyLE := fun a b => by
  unfold keyLE; infer_instance

/-- Select the minimal entry (by `keyLE`) from `e :: l`, returning it
together with the remaining entries: the heap extraction performed by
`asyncio.PriorityQueue.get`. -/
def popMinAux (e : Entry) (l : List Entry) : Entry × List Entry :=
  match l with
  | [] => (e, [])
  | x :: xs =>
      if keyLE e x then
        let p := popMinAux e xs
        (p.1, x :: p.2)
      else
        let p := popMinAux x xs
        (p.1, e :: p.2)

/-- Repeatedly extract the minimal entry; `fuel` bounds the number of
extractions (the callers pass the queue length, which drains fully). -/
def drainFuel : Nat → List Entry → List Entry
  | 0, _ => []
  | _ + 1, [] => []
  | fuel + 1, e :: es =>
      let p := popMinAux e es
      p.1 :: drainFuel fuel p.2

/-- The order in which `QueueService.process_queue` dequeues the current
queue contents: repeated minimal-key extraction until empty. -/
def drainEntries (q : List Entry) : List Entry :=
  drainFuel q.length q

/-- The drain loop of `QueueService.process_queue` acting on the items map:
pop the minimal entry, run `_process_item` on it (the handler behaviour and
the two `datetime.now` readings for the k-th pop are given by `runs` and
`times`), and continue until the queue is empty; a handler failure is
caught inside `_process_item` and never aborts the loop.  Returns the final
map and the log of processed entries in pop order. -/
def process_queue_go (runs : Nat → HandlerRun) (times : Nat → Nat × Nat) :
    Nat → ItemsMap → List Entry → Nat → ItemsMap × List Entry
  | 0, m, _, _ => (m, [])
  | _ + 1, m, [], _ => (m, [])
  | fuel + 1, m, e :: es, k =>
      let p := popMinAux e es
      let m1 := process_item m p.1.2.2 (runs k) (times k).1 (times k).2
      let r := process_queue_go runs times fuel m1 p.2 (k + 1)
      (r.1, p.1 :: r.2)

/-- The body of `QueueService.process_queue`. -/
def process_queue (m : ItemsMap) (q : List Entry) (runs : Nat → HandlerRun)
    (times : Nat → Nat × Nat) : ItemsMap × List Entry :=
  process_queue_go runs times q.length m q 0

/-- Token bucket with exponential backoff (`RateLimiter` in `services/queue.py`).
Token level and clock readings are rationals. -/
structure RateLimiter where
  requests_per_minute : Int
  burst : Int
  backoff_base_seconds : ℚ
  max_backoff_seconds : ℚ
  _tokens : ℚ
  _last_refill : ℚ
  _refill_rate : ℚ
deriving DecidableEq, Repr

namespace RateLimiter

/-- Construction of a `RateLimiter` (dataclass defaults plus
`__post_init__`): backoff base 0.5 s, max backoff 5.0 s, a full bucket
(`_tokens = burst`), `_last_refill` set to the current event-loop time, and
`_refill_rate = requests_per_minute / 60` unless `requests_per_minute` is
falsy (0), in which case the rate is 0. -/
def init (requests_per_minute burst : Int) (now : ℚ) : RateLimiter where
  requests_per_minute := requests_per_minute
  burst := burst
  backoff_base_seconds := 1 / 2
  max_backoff_seconds := 5
  _tokens := (burst : ℚ)
  _last_refill := now
  _refill_rate := if requests_per_minute ≠ 0 then (requests_per_minute : ℚ) / 60 else 0

/-- The body of `RateLimiter._refill`: replenish tokens from elapsed time,
capped at `burst`; a non-positive elapsed time or a zero refill rate leaves
the limiter unchanged. -/
def refill (rl : RateLimiter) (now : ℚ) : RateLimiter :=
  let elapsed := now - rl._last_refill
  if elapsed ≤ 0 ∨ rl._refill_rate = 0 then rl
  else
    { rl with
      _tokens := min (rl.burst : ℚ) (rl._tokens + elapsed * rl._refill_rate)
      _last_refill := now }

/-- The sleep duration computed by one failed admission attempt inside
`RateLimiter.acquire`: the larger of the time to accumulate one token
(`(1 - tokens) / refill_rate`, or the backoff base when the rate is 0) and
the exponential backoff `min(max_backoff, base * 2^attempt)`. -/
def sleepDuration (rl : RateLimiter) (attempt : Nat) : ℚ :=
  let wait_time :=
    if rl._refill_rate ≠ 0 then (1 - rl._tokens) / rl._refill_rate
    else rl.backoff_base_seconds
  let backoff := min rl.max_backoff_seconds (rl.backoff_base_seconds * 2 ^ attempt)
  max wait_time backoff

/-- The retry loop of `RateLimiter.acquire`.  Each iteration refills from
the next clock reading; if at least one token is available it is deducted
and the loop returns, otherwise the iteration sleeps for `sleepDuration`
and retries with `attempt + 1`.  The clock trace supplies one event-loop
reading per iteration; an exhausted trace truncates the observation
(`acquired = false` means the loop was still running).  Returns the limiter
state, the list of sleep durations, and whether a token was acquired. -/
def acquireLoop : RateLimiter → Nat → List ℚ → RateLimiter × List ℚ × Bool
  | rl, _, [] => (rl, [], false)
  | rl, attempt, now :: rest =>
      let rl1 := refill rl now
      if 1 ≤ rl1._tokens then
        ({ rl1 with _tokens := rl1._tokens - 1 }, [], true)
      else
        let w := sleepDuration rl1 attempt
        let r := acquireLoop rl1 (attempt + 1) rest
        (r.1, w :: r.2.1, r.2.2)

/-- The body of `RateLimiter.acquire`: return immediately when
`requests_per_minute ≤ 0`, otherwise run the retry loop starting at
attempt 0. -/
def acquire (rl : RateLimiter) (clock : List ℚ) : RateLimiter × List ℚ × Bool :=
  if rl.requests_per_minute ≤ 0 then (rl, [], true)
  else acquireLoop rl 0 clock

/-- Fold a sequence of `acquire` calls (each with its own clock trace)
over a limiter. -/
def acquireAll (rl : RateLimiter) (clocks : List (List ℚ)) : RateLimiter :=
  clocks.foldl (fun r c => (acquire r c).1) rl

end RateLimiter

/-- Per-service rate-limit configuration (`ServiceRateLimit` in
`config/settings.py`): optional positive integers. -/
structure ServiceRateLimit where
  requests_per_day : Option Nat
  requests_per_hour : Option Nat
  requests_per_minute : Option Nat
  tokens_per_minute : Option Nat
  burst : Option Nat
deriving DecidableEq, Repr

/-- Python truthiness of `v or d` for an optional integer: `None` and `0`
fall back to the default. -/
def orTruthy (v : Option Nat) (d : Nat) : Nat :=
  match v with
  | none => d
  | some n => if n ≠ 0 then n else d

/-- The body of `QueueService._create_limiter`: default the rate to 60
requests per minute when unset, default the burst to the (possibly
defaulted) rate, and build the limiter (the `requests_per_minute <= 0`
branch only logs). -/
def create_limiter (config : ServiceRateLimit) (now : ℚ) : RateLimiter :=
  let requests_per_minute := orTruthy config.requests_per_minute 60
  let burst := orTruthy config.burst requests_per_minute
  RateLimiter.init (requests_per_minute : Int) (burst : Int) now

/-- Issue `n` consecutive `acquire` calls with no event-loop time elapsing
(every clock reading equals `now`).  The boolean is true exactly when every
call acquired a token immediately, with an empty list of sleeps. -/
def noDelayCalls (rl : RateLimiter) (now : ℚ) : Nat → RateLimiter × Bool
  | 0 => (rl, true)
  | n + 1 =>
      let r := RateLimiter.acquire rl [now]
      let rest := noDelayCalls r.1 now n
      (rest.1, (r.2.2 && r.2.1.isEmpty) && rest.2)

/-- Concrete limiter used to evaluate the definitions: 60 requests per
minute, burst 1, with an empty bucket; the refill rate 60/60 is stored as
the literal 1 so that kernel evaluation avoids rational normalisation. -/
def sampleLimiter : RateLimiter :=
  { RateLimiter.init 60 1 0 with _tokens := 0, _refill_rate := 1 }

/-- Concrete enqueue request used to evaluate the definitions. -/
def sampleReq : EnqueueRequest :=
  ⟨"u", 0, [], true, 300, false, false, 0⟩

/-- Second concrete enqueue request targeting the same URL with a
different priority and different preferences. -/
def sampleReq2 : EnqueueRequest :=
  ⟨"u", 5, ["tag"], false, 100, true, true, 7⟩

/-- Concrete progress-callback payload reporting overall progress 50. -/
def sampleUpdate : ProgressUpdate :=
  ⟨ProcessingStage.downloading, 10, 50, "halfway", "u", none⟩

/-! ## Basic lemmas about the items map -/

theorem setItem_self (m : ItemsMap) (url : String) (it : QueueItem) :
    setItem m url it url = some it := by
  simp [setItem]

theorem setItem_ne (m : ItemsMap) (url : String) (it : QueueItem)
    (u : String) (h : u ≠ url) : setItem m url it u = m u := by
  simp [setItem, h]

theorem progress_callback_ne (m : ItemsMap) (url : String) (update : ProgressUpdate)
    (u : String) (h : u ≠ url) : progress_callback m url update u = m u := by
  unfold progress_callback
  cases m url with
  | none => rfl
  | some current => exact setItem_ne _ _ _ _ h

theorem applyUpdates_ne (url : String) (u : String) (h : u ≠ url) :
    ∀ (updates : List ProgressUpdate) (m : ItemsMap),
      applyUpdates m url updates u = m u := by
  intro updates
  induction updates with
  | nil => intro m; rfl
  | cons x xs ih =>
      intro m
      show applyUpdates (progress_callback m url x) url xs u = m u
      rw [ih, progress_callback_ne _ _ _ _ h]

theorem process_item_ne (m : ItemsMap) (item : QueueItem) (run : HandlerRun)
    (t1 t2 : Nat) (u : String) (h : u ≠ item.video_url) :
    process_item m item run t1 t2 u = m u := by
  unfold process_item
  cases run.outcome with
  | success =>
      simp only
      rw [setItem_ne _ _ _ _ h, applyUpdates_ne _ _ h, setItem_ne _ _ _ _ h]
  | failure msg ty =>
      simp only
      rw [setItem_ne _ _ _ _ h, applyUpdates_ne _ _ h, setItem_ne _ _ _ _ h]

theorem process_item_success_at (m : ItemsMap) (item : QueueItem)
    (ups : List ProgressUpdate) (t1 t2 : Nat) :
    process_item m item ⟨ups, HandlerOutcome.success⟩ t1 t2 item.video_url =
      some (completeTransition (startProcessing item t1) t2) := by
  unfold process_item
  exact setItem_self _ _ _

theorem process_item_failure_at (m : ItemsMap) (item : QueueItem)
    (ups : List ProgressUpdate) (msg ty : String) (t1 t2 : Nat) :
    process_item m item ⟨ups, HandlerOutcome.failure msg ty⟩ t1 t2 item.video_url =
      some (failTransition (startProcessing item t1) msg ty t2) := by
  unfold process_item
  exact setItem_self _ _ _

theorem process_queue_go_log (runs : Nat → HandlerRun) (times : Nat → Nat × Nat) :
    ∀ (fuel : Nat) (m : ItemsMap) (q : List Entry) (k : Nat),
      (process_queue_go runs times fuel m q k).2 = drainFuel fuel q := by
  intro fuel
  induction fuel with
  | zero => intro m q k; rfl
  | succ fuel ih =>
      intro m q k
      cases q with
      | nil => rfl
      | cons e es =>
          show (_ : ItemsMap × List Entry).2 = _
          simp only [process_queue_go, drainFuel]
          rw [ih]

/-! ## Claim theorems: terminal transitions and progress tracking -/

/-- C4: for every item whose ingestion handler returns successfully, the
scheduler stores the item with status COMPLETED, `completed_at` set,
`current_stage` equal to the terminal complete stage, and both
`stage_progress_percent` and `overall_progress_percent` equal to 100. -/
theorem claim_C4_success_transition (m : ItemsMap) (item : QueueItem)
    (ups : List ProgressUpdate) (t1 t2 : Nat) :
    process_item m item ⟨ups, HandlerOutcome.success⟩ t1 t2 item.video_url =
      some (completeTransition (startProcessing item t1) t2) ∧
    (completeTransition (startProcessing item t1) t2).status = QueueStatus.completed ∧
    (completeTransition (startProcessing item t1) t2).completed_at = some t2 ∧
    (completeTransition (startProcessing item t1) t2).current_stage =
      some ProcessingStage.complete ∧
    (completeTransition (startProcessing item t1) t2).stage_progress_percent = 100 ∧
    (completeTransition (startProcessing item t1) t2).overall_progress_percent = 100 :=
  ⟨process_item_success_at m item ups t1 t2, rfl, rfl, rfl, rfl, rfl⟩

/-- C3: for every item whose ingestion handler raises, the scheduler stores
the item with status FAILED, `completed_at` set, `current_stage` equal to
the terminal failed stage, and `error_message`/`error_type` taken from the
raised error; the error is not propagated out of the drain loop: processing
an item leaves every other identifier's map entry unchanged, and the pop
order of the drain loop is the same for every assignment of handler
behaviours (so one item's failure never aborts the loop or changes other
items' order or outcomes). -/
theorem claim_C3_failure_isolation :
    (∀ (m : ItemsMap) (item : QueueItem) (ups : List ProgressUpdate)
        (msg ty : String) (t1 t2 : Nat),
      process_item m item ⟨ups, HandlerOutcome.failure msg ty⟩ t1 t2 item.video_url =
        some (failTransition (startProcessing item t1) msg ty t2) ∧
      (failTransition (startProcessing item t1) msg ty t2).status = QueueStatus.failed ∧
      (failTransition (startProcessing item t1) msg ty t2).completed_at = some t2 ∧
      (failTransition (startProcessing item t1) msg ty t2).current_stage =
        some ProcessingStage.failed ∧
      (failTransition (startProcessing item t1) msg ty t2).error_message = some msg ∧
      (failTransition (startProcessing item t1) msg ty t2).error_type = some ty) ∧
    (∀ (m : ItemsMap) (item : QueueItem) (run : HandlerRun) (t1 t2 : Nat) (u : String),
      u ≠ item.video_url → process_item m item run t1 t2 u = m u) ∧
    (∀ (m : ItemsMap) (q : List Entry) (runs runs2 : Nat → HandlerRun)
        (times times2 : Nat → Nat × Nat),
      (process_queue m q runs times).2 = drainEntries q ∧
      (process_queue m q runs times).2 = (process_queue m q runs2 times2).2) := by
  refine ⟨?_, ?_, ?_⟩
  · intro m item ups msg ty t1 t2
    exact ⟨process_item_failure_at m item ups msg ty t1 t2, rfl, rfl, rfl, rfl, rfl⟩
  · intro m item run t1 t2 u h
    exact process_item_ne m item run t1 t2 u h
  · intro m q runs runs2 times times2
    unfold process_queue drainEntries
    constructor
    · exact process_queue_go_log runs times q.length m q 0
    · rw [process_queue_go_log runs times q.length m q 0,
        process_queue_go_log runs2 times2 q.length m q 0]

/-- Witness for C3: a concrete failing run stores the FAILED record and
leaves an unrelated identifier untouched. -/
theorem claim_C3_failure_isolation_witness :
    process_item (fun _ => none) (mkQueueItem sampleReq)
        ⟨[sampleUpdate], HandlerOutcome.failure "boom" "ValueError"⟩ 1 2 "other" =
      (fun _ => none : ItemsMap) "other" :=
  (claim_C3_failure_isolation.2.1 (fun _ => none) (mkQueueItem sampleReq)
    ⟨[sampleUpdate], HandlerOutcome.failure "boom" "ValueError"⟩ 1 2 "other" (by decide))

/-- C10: the terminal transitions rebuild the stored item from the
`in_progress` snapshot taken at the start of processing, not from the
latest progress-updated map entry: the stored message reverts to the
dequeued item's pre-processing message; on FAILED the overall progress
reverts to the dequeued item's pre-processing value and the stage progress
to the 0 set at the PROCESSING transition (every item constructed by
`add_to_queue` has stage progress 0 before processing); and the final map
is identical whether or not any progress-callback invocations happened
during the run. -/
theorem claim_C10_terminal_from_snapshot (m : ItemsMap) (item : QueueItem)
    (ups : List ProgressUpdate) (msg ty : String) (t1 t2 : Nat) :
    (process_item m item ⟨ups, HandlerOutcome.failure msg ty⟩ t1 t2 item.video_url).map
        QueueItem.message = some item.message ∧
    (process_item m item ⟨ups, HandlerOutcome.failure msg ty⟩ t1 t2 item.video_url).map
        QueueItem.overall_progress_percent = some item.overall_progress_percent ∧
    (process_item m item ⟨ups, HandlerOutcome.failure msg ty⟩ t1 t2 item.video_url).map
        QueueItem.stage_progress_percent = some 0 ∧
    (process_item m item ⟨ups, HandlerOutcome.success⟩ t1 t2 item.video_url).map
        QueueItem.message = some item.message ∧
    (∀ u : String,
      process_item m item ⟨ups, HandlerOutcome.failure msg ty⟩ t1 t2 u =
        process_item m item ⟨[], HandlerOutcome.failure msg ty⟩ t1 t2 u) ∧
    (∀ u : String,
      process_item m item ⟨ups, HandlerOutcome.success⟩ t1 t2 u =
        process_item m item ⟨[], HandlerOutcome.success⟩ t1 t2 u) ∧
    (∀ r : EnqueueRequest, (mkQueueItem r).stage_progress_percent = 0) := by
  refine ⟨?_, ?_, ?_, ?_, ?_, ?_, fun r => rfl⟩
  · rw [process_item_failure_at]; rfl
  · rw [process_item_failure_at]; rfl
  · rw [process_item_failure_at]; rfl
  · rw [process_item_success_at]; rfl
  · intro u
    by_cases h : u = item.video_url
    · subst h; rw [process_item_failure_at, process_item_failure_at]
    · rw [process_item_ne _ _ _ _ _ _ h, process_item_ne _ _ _ _ _ _ h]
  · intro u
    by_cases h : u = item.video_url
    · subst h; rw [process_item_success_at, process_item_success_at]
    · rw [process_item_ne _ _ _ _ _ _ h, process_item_ne _ _ _ _ _ _ h]

/-- C9: enqueueing the same target identifier twice overwrites the map
entry with the newly constructed item while the priority queue keeps the
entry pushed by the first enqueue: after both enqueues the queue holds the
two entries and the map holds only the later item. -/
theorem claim_C9_duplicate_enqueue (s : QueueServiceState) (r1 r2 : EnqueueRequest)
    (h : r2.url = r1.url) :
    (add_to_queue (add_to_queue s r1).1 r2).1._items r1.url =
      some (add_to_queue (add_to_queue s r1).1 r2).2 ∧
    (add_to_queue (add_to_queue s r1).1 r2).2 = mkQueueItem r2 ∧
    (add_to_queue s r1).2 = mkQueueItem r1 ∧
    (add_to_queue (add_to_queue s r1).1 r2).1._priority_queue =
      s._priority_queue ++
        [(-r1.priority, s._sequence + 1, mkQueueItem r1),
         (-r2.priority, s._sequence + 2, mkQueueItem r2)] := by
  refine ⟨?_, rfl, rfl, ?_⟩
  · show setItem _ r2.url _ r1.url = _
    rw [h]; exact setItem_self _ _ _
  · show (s._priority_queue ++ _) ++ _ = _
    rw [List.append_assoc]; rfl

/-- Witness for C9: two concrete enqueues of the URL of `sampleReq`. -/
theorem claim_C9_duplicate_enqueue_witness :
    (add_to_queue (add_to_queue initState sampleReq).1 sampleReq2).1._items sampleReq.url =
      some (add_to_queue (add_to_queue initState sampleReq).1 sampleReq2).2 ∧
    (add_to_queue (add_to_queue initState sampleReq).1 sampleReq2).2 = mkQueueItem sampleReq2 ∧
    (add_to_queue initState sampleReq).2 = mkQueueItem sampleReq ∧
    (add_to_queue (add_to_queue initState sampleReq).1 sampleReq2).1._priority_queue =
      initState._priority_queue ++
        [(-sampleReq.priority, initState._sequence + 1, mkQueueItem sampleReq),
         (-sampleReq2.priority, initState._sequence + 2, mkQueueItem sampleReq2)] :=
  claim_C9_duplicate_enqueue initState sampleReq sampleReq2 (by decide)

/-- Counterexample to C1: enqueue one item, then process it with a handler
that reports overall progress 50 through the progress callback and then
raises.  Inside the run (this is exactly the intermediate map computed by
`process_item` before its terminal store) the map holds overall progress
50; the FAILED terminal transition then stores overall progress 0, a
strictly smaller value than the previously stored 50. -/
theorem claim_C1_counterexample :
    (applyUpdates
        (setItem (add_to_queue initState sampleReq).1._items "u"
          (startProcessing (add_to_queue initState sampleReq).2 1))
        "u" [sampleUpdate] "u").map QueueItem.overall_progress_percent = some 50 ∧
    (process_item (add_to_queue initState sampleReq).1._items
        (add_to_queue initState sampleReq).2
        ⟨[sampleUpdate], HandlerOutcome.failure "boom" "ValueError"⟩ 1 2 "u").map
      QueueItem.overall_progress_percent = some 0 ∧
    (process_item (add_to_queue initState sampleReq).1._items
        (add_to_queue initState sampleReq).2
        ⟨[sampleUpdate], HandlerOutcome.failure "boom" "ValueError"⟩ 1 2 "u").map
      QueueItem.status = some QueueStatus.failed ∧
    (0 : Nat) < 50 := by
  refine ⟨?_, ?_, ?_, by decide⟩ <;> decide

/-- C1 (amended): `overall_progress_percent` never decreases through the
PROCESSING transition, the progress-callback invocations (each stores
exactly `max(existing, reported)`), and the COMPLETED transition (which
stores 100); the FAILED transition, however, rebuilds the stored item from
the pre-processing snapshot and may store a smaller value than one stored
by a progress callback during the run. -/
theorem claim_C1_amended_monotonicity :
    (∀ (m : ItemsMap) (url : String) (u : ProgressUpdate) (cur : QueueItem),
      m url = some cur →
        (progress_callback m url u url).map QueueItem.overall_progress_percent =
          some (max cur.overall_progress_percent u.overall_progress) ∧
        cur.overall_progress_percent ≤
          max cur.overall_progress_percent u.overall_progress) ∧
    (∀ (item : QueueItem) (t : Nat),
      (startProcessing item t).overall_progress_percent =
        item.overall_progress_percent) ∧
    (∀ (m : ItemsMap) (item : QueueItem) (ups : List ProgressUpdate) (t1 t2 : Nat),
      (process_item m item ⟨ups, HandlerOutcome.success⟩ t1 t2 item.video_url).map
        QueueItem.overall_progress_percent = some 100) := by
  refine ⟨?_, fun item t => rfl, ?_⟩
  · intro m url u cur h
    constructor
    · unfold progress_callback
      rw [h]
      show (setItem m url _ url).map QueueItem.overall_progress_percent = _
      rw [setItem_self]
      rfl
    · exact le_max_left _ _
  · intro m item ups t1 t2
    rw [process_item_success_at]
    rfl

/-! ## Rate limiter lemmas -/

theorem refill_no_elapsed (rl : RateLimiter) (now : ℚ) (h : rl._last_refill = now) :
    RateLimiter.refill rl now = rl := by
  simp [RateLimiter.refill, h]

theorem refill_bounds (rl : RateLimiter) (now : ℚ)
    (h0 : 0 ≤ rl._tokens) (hb : rl._tokens ≤ (rl.burst : ℚ)) (hr : 0 ≤ rl._refill_rate) :
    0 ≤ (RateLimiter.refill rl now)._tokens ∧
    (RateLimiter.refill rl now)._tokens ≤ ((RateLimiter.refill rl now).burst : ℚ) ∧
    (RateLimiter.refill rl now).burst = rl.burst ∧
    (RateLimiter.refill rl now)._refill_rate = rl._refill_rate ∧
    (RateLimiter.refill rl now).requests_per_minute = rl.requests_per_minute := by
  unfold RateLimiter.refill
  by_cases hc : now - rl._last_refill ≤ 0 ∨ rl._refill_rate = 0
  · rw [if_pos hc]
    exact ⟨h0, hb, rfl, rfl, rfl⟩
  · rw [if_neg hc]
    push_neg at hc
    refine ⟨?_, min_le_left _ _, rfl, rfl, rfl⟩
    have hburst : (0 : ℚ) ≤ (rl.burst : ℚ) := le_trans h0 hb
    have hmul : 0 ≤ (now - rl._last_refill) * rl._refill_rate :=
      mul_nonneg (le_of_lt hc.1) hr
    exact le_min hburst (by linarith)

theorem acquireLoop_bounds : ∀ (clock : List ℚ) (rl : RateLimiter) (attempt : Nat),
    0 ≤ rl._tokens → rl._tokens ≤ (rl.burst : ℚ) → 0 ≤ rl._refill_rate →
    0 ≤ (RateLimiter.acquireLoop rl attempt clock).1._tokens ∧
    (RateLimiter.acquireLoop rl attempt clock).1._tokens ≤
      ((RateLimiter.acquireLoop rl attempt clock).1.burst : ℚ) ∧
    (RateLimiter.acquireLoop rl attempt clock).1.burst = rl.burst ∧
    (RateLimiter.acquireLoop rl attempt clock).1._refill_rate = rl._refill_rate ∧
    (RateLimiter.acquireLoop rl attempt clock).1.requests_per_minute =
      rl.requests_per_minute := by
  intro clock
  induction clock with
  | nil => intro rl attempt h0 hb hr; exact ⟨h0, hb, rfl, rfl, rfl⟩
  | cons now rest ih =>
      intro rl attempt h0 hb hr
      obtain ⟨r0, rb, rburst, rrate, rrpm⟩ := refill_bounds rl now h0 hb hr
      simp only [RateLimiter.acquireLoop]
      by_cases hone : 1 ≤ (RateLimiter.refill rl now)._tokens
      · rw [if_pos hone]
        refine ⟨?_, ?_, rburst, rrate, rrpm⟩
        · show 0 ≤ (RateLimiter.refill rl now)._tokens - 1
          linarith
        · show (RateLimiter.refill rl now)._tokens - 1 ≤
            ((RateLimiter.refill rl now).burst : ℚ)
          linarith
      · rw [if_neg hone]
        have h2 := ih (RateLimiter.refill rl now) (attempt + 1) r0 rb (rrate ▸ hr)
        exact ⟨h2.1, h2.2.1, h2.2.2.1.trans rburst, h2.2.2.2.1.trans rrate,
          h2.2.2.2.2.trans rrpm⟩

theorem acquire_bounds (rl : RateLimiter) (clock : List ℚ)
    (h0 : 0 ≤ rl._tokens) (hb : rl._tokens ≤ (rl.burst : ℚ))
    (hsafe : rl.requests_per_minute ≤ 0 ∨ 0 ≤ rl._refill_rate) :
    0 ≤ (RateLimiter.acquire rl clock).1._tokens ∧
    (RateLimiter.acquire rl clock).1._tokens ≤
      ((RateLimiter.acquire rl clock).1.burst : ℚ) ∧
    (RateLimiter.acquire rl clock).1.burst = rl.burst ∧
    (RateLimiter.acquire rl clock).1._refill_rate = rl._refill_rate ∧
    (RateLimiter.acquire rl clock).1.requests_per_minute = rl.requests_per_minute := by
  unfold RateLimiter.acquire
  by_cases hrpm : rl.requests_per_minute ≤ 0
  · rw [if_pos hrpm]
    exact ⟨h0, hb, rfl, rfl, rfl⟩
  · rw [if_neg hrpm]
    have hr : 0 ≤ rl._refill_rate := hsafe.resolve_left hrpm
    exact acquireLoop_bounds clock rl 0 h0 hb hr

theorem acquireAll_bounds : ∀ (clocks : List (List ℚ)) (rl : RateLimiter),
    0 ≤ rl._tokens → rl._tokens ≤ (rl.burst : ℚ) →
    (rl.requests_per_minute ≤ 0 ∨ 0 ≤ rl._refill_rate) →
    0 ≤ (RateLimiter.acquireAll rl clocks)._tokens ∧
    (RateLimiter.acquireAll rl clocks)._tokens ≤
      ((RateLimiter.acquireAll rl clocks).burst : ℚ) ∧
    (RateLimiter.acquireAll rl clocks).burst = rl.burst := by
  intro clocks
  induction clocks with
  | nil => intro rl h0 hb _; exact ⟨h0, hb, rfl⟩
  | cons c cs ih =>
      intro rl h0 hb hsafe
      obtain ⟨a0, ab, aburst, arate, arpm⟩ := acquire_bounds rl c h0 hb hsafe
      have hsafe2 : (RateLimiter.acquire rl c).1.requests_per_minute ≤ 0 ∨
          0 ≤ (RateLimiter.acquire rl c).1._refill_rate := by
        rw [arpm, arate]; exact hsafe
      have h2 := ih (RateLimiter.acquire rl c).1 a0 ab hsafe2
      exact ⟨h2.1, h2.2.1, h2.2.2.trans aburst⟩

theorem init_safe (rpm b : Int) (now : ℚ) :
    (RateLimiter.init rpm b now).requests_per_minute ≤ 0 ∨
      0 ≤ (RateLimiter.init rpm b now)._refill_rate := by
  by_cases h : rpm ≤ 0
  · exact Or.inl h
  · refine Or.inr ?_
    show 0 ≤ (if rpm ≠ 0 then (rpm : ℚ) / 60 else 0)
    rw [if_pos (by omega : rpm ≠ 0)]
    have : (0 : ℚ) < (rpm : ℚ) := by exact_mod_cast lt_of_not_le h
    positivity

theorem acquire_immediate (rl : RateLimiter) (now : ℚ)
    (hlast : rl._last_refill = now) (htok : 1 ≤ rl._tokens) :
    ∃ rl', RateLimiter.acquire rl [now] = (rl', [], true) ∧
      rl'._last_refill = now ∧ rl._tokens - 1 ≤ rl'._tokens := by
  unfold RateLimiter.acquire
  by_cases hrpm : rl.requests_per_minute ≤ 0
  · rw [if_pos hrpm]
    exact ⟨rl, rfl, hlast, by linarith⟩
  · rw [if_neg hrpm]
    simp only [RateLimiter.acquireLoop]
    rw [refill_no_elapsed rl now hlast, if_pos htok]
    exact ⟨{ rl with _tokens := rl._tokens - 1 }, rfl, hlast, le_refl _⟩

theorem noDelayCalls_all : ∀ (n : Nat) (rl : RateLimiter) (now : ℚ),
    rl._last_refill = now → (n : ℚ) ≤ rl._tokens →
    (noDelayCalls rl now n).2 = true := by
  intro n
  induction n with
  | zero => intro rl now _ _; rfl
  | succ n ih =>
      intro rl now hlast htok
      push_cast at htok
      have h1 : (1 : ℚ) ≤ rl._tokens := by
        have : (0 : ℚ) ≤ (n : ℚ) := Nat.cast_nonneg n
        linarith
      obtain ⟨rl', hacq, hl', htk'⟩ := acquire_immediate rl now hlast h1
      show (((RateLimiter.acquire rl [now]).2.2 &&
          (RateLimiter.acquire rl [now]).2.1.isEmpty) &&
        (noDelayCalls (RateLimiter.acquire rl [now]).1 now n).2) = true
      rw [hacq]
      simp only [List.isEmpty_nil, Bool.and_true, Bool.true_and]
      exact ih rl' now hl' (by linarith)

/-! ## Claim theorems: rate limiter -/

/-- C7: for every `RateLimiter` whose `requests_per_minute` is at most 0,
every `acquire` call returns immediately: no sleeps, token acquired, the
limiter state (token level included) unchanged. -/
theorem claim_C7_disabled_limiter (rl : RateLimiter) (clock : List ℚ)
    (h : rl.requests_per_minute ≤ 0) :
    RateLimiter.acquire rl clock = (rl, [], true) := by
  unfold RateLimiter.acquire
  rw [if_pos h]

/-- Witness for C7: a limiter constructed with rate 0 admits immediately. -/
theorem claim_C7_disabled_limiter_witness :
    RateLimiter.acquire (RateLimiter.init 0 3 0) [1, 2] = (RateLimiter.init 0 3 0, [], true) :=
  claim_C7_disabled_limiter (RateLimiter.init 0 3 0) [1, 2] (by decide)

/-- C5: whenever an iteration of `acquire` finds fewer than one token after
refilling (with a positive refill rate), the duration it sleeps before
retrying equals the maximum of `(1 - tokens) / refill_rate` and
`min(max_backoff_seconds, backoff_base_seconds * 2 ^ attempt)`, the attempt
counter being incremented for the next iteration (it starts at 0 in
`acquire`); the constructor defaults are base 0.5 s and max 5.0 s. -/
theorem claim_C5_backoff_wait (rl : RateLimiter) (attempt : Nat) (now : ℚ)
    (rest : List ℚ)
    (hrate : 0 < (RateLimiter.refill rl now)._refill_rate)
    (htok : (RateLimiter.refill rl now)._tokens < 1) :
    (RateLimiter.acquireLoop rl attempt (now :: rest)).2.1 =
      max ((1 - (RateLimiter.refill rl now)._tokens) /
            (RateLimiter.refill rl now)._refill_rate)
          (min (RateLimiter.refill rl now).max_backoff_seconds
            ((RateLimiter.refill rl now).backoff_base_seconds * 2 ^ attempt)) ::
        (RateLimiter.acquireLoop (RateLimiter.refill rl now) (attempt + 1) rest).2.1 ∧
    (∀ (rpm b : Int) (t : ℚ),
      (RateLimiter.init rpm b t).backoff_base_seconds = 1 / 2 ∧
      (RateLimiter.init rpm b t).max_backoff_seconds = 5) := by
  refine ⟨?_, fun rpm b t => ⟨rfl, rfl⟩⟩
  simp only [RateLimiter.acquireLoop]
  rw [if_neg (not_le.mpr htok)]
  show RateLimiter.sleepDuration (RateLimiter.refill rl now) attempt :: _ = _
  unfold RateLimiter.sleepDuration
  rw [if_pos (ne_of_gt hrate)]

/-- Witness for C5: the empty-bucket limiter sleeps for
`max((1 - 0)/1, min(5, 0.5 * 2^3))` at attempt 3. -/
theorem claim_C5_backoff_wait_witness :
    (RateLimiter.acquireLoop sampleLimiter 3 [0, 9]).2.1 =
      max ((1 - (RateLimiter.refill sampleLimiter 0)._tokens) /
            (RateLimiter.refill sampleLimiter 0)._refill_rate)
          (min (RateLimiter.refill sampleLimiter 0).max_backoff_seconds
            ((RateLimiter.refill sampleLimiter 0).backoff_base_seconds * 2 ^ 3)) ::
        (RateLimiter.acquireLoop (RateLimiter.refill sampleLimiter 0) 4 [9]).2.1 :=
  (claim_C5_backoff_wait sampleLimiter 3 0 [9]
    (by rw [refill_no_elapsed sampleLimiter 0 rfl]; decide)
    (by rw [refill_no_elapsed sampleLimiter 0 rfl]; decide)).1

/-- C6: for every constructed limiter and every sequence of `acquire`
calls, the token level stays within `[0, burst]`; the level starts equal
to `burst`, and the burst capacity never changes.  Stated both for a
direct construction with a non-negative burst and, hypothesis-free, for
every limiter built from a service configuration by `create_limiter`
(whose burst is always positive). -/
theorem claim_C6_token_level_bounds :
    (∀ (rpm b : Int) (now : ℚ) (clocks : List (List ℚ)), 0 ≤ b →
      0 ≤ (RateLimiter.acquireAll (RateLimiter.init rpm b now) clocks)._tokens ∧
      (RateLimiter.acquireAll (RateLimiter.init rpm b now) clocks)._tokens ≤
        ((RateLimiter.acquireAll (RateLimiter.init rpm b now) clocks).burst : ℚ) ∧
      (RateLimiter.acquireAll (RateLimiter.init rpm b now) clocks).burst = b) ∧
    (∀ (rpm b : Int) (now : ℚ), (RateLimiter.init rpm b now)._tokens = (b : ℚ)) ∧
    (∀ (config : ServiceRateLimit) (now : ℚ) (clocks : List (List ℚ)),
      0 ≤ (RateLimiter.acquireAll (create_limiter config now) clocks)._tokens ∧
      (RateLimiter.acquireAll (create_limiter config now) clocks)._tokens ≤
        ((RateLimiter.acquireAll (create_limiter config now) clocks).burst : ℚ)) := by
  have main : ∀ (rpm b : Int) (now : ℚ) (clocks : List (List ℚ)), 0 ≤ b →
      0 ≤ (RateLimiter.acquireAll (RateLimiter.init rpm b now) clocks)._tokens ∧
      (RateLimiter.acquireAll (RateLimiter.init rpm b now) clocks)._tokens ≤
        ((RateLimiter.acquireAll (RateLimiter.init rpm b now) clocks).burst : ℚ) ∧
      (RateLimiter.acquireAll (RateLimiter.init rpm b now) clocks).burst = b := by
    intro rpm b now clocks hb
    have h0 : (0 : ℚ) ≤ (RateLimiter.init rpm b now)._tokens := by
      show (0 : ℚ) ≤ (b : ℚ); exact_mod_cast hb
    have hle : (RateLimiter.init rpm b now)._tokens ≤
        ((RateLimiter.init rpm b now).burst : ℚ) := le_refl _
    exact acquireAll_bounds clocks (RateLimiter.init rpm b now) h0 hle (init_safe rpm b now)
  refine ⟨main, fun rpm b now => rfl, ?_⟩
  intro config now clocks
  have h := main (orTruthy config.requests_per_minute 60 : Int)
    (orTruthy config.burst (orTruthy config.requests_per_minute 60) : Int) now clocks
    (by positivity)
  exact ⟨h.1, h.2.1⟩

/-- Witness for C6: a directly constructed limiter with burst 2 after two
acquire calls. -/
theorem claim_C6_token_level_bounds_witness :
    0 ≤ (RateLimiter.acquireAll (RateLimiter.init 60 2 0) [[1], [2]])._tokens ∧
    (RateLimiter.acquireAll (RateLimiter.init 60 2 0) [[1], [2]])._tokens ≤
      ((RateLimiter.acquireAll (RateLimiter.init 60 2 0) [[1], [2]]).burst : ℚ) ∧
    (RateLimiter.acquireAll (RateLimiter.init 60 2 0) [[1], [2]]).burst = 2 :=
  claim_C6_token_level_bounds.1 60 2 0 [[1], [2]] (by decide)

/-- C8: a limiter built from a service configuration defaults an unset
rate to 60 requests per minute, defaults an unset burst to the (possibly
defaulted) rate, starts with a token level equal to `burst`, and admits
its first `burst` acquire calls immediately (no sleeps) when no event-loop
time elapses. -/
theorem claim_C8_limiter_construction (config : ServiceRateLimit) (now : ℚ) :
    (config.requests_per_minute = none →
      (create_limiter config now).requests_per_minute = 60) ∧
    (config.burst = none →
      (create_limiter config now).burst =
        (create_limiter config now).requests_per_minute) ∧
    (create_limiter config now)._tokens = ((create_limiter config now).burst : ℚ) ∧
    (∀ n : Nat, (n : Int) ≤ (create_limiter config now).burst →
      (noDelayCalls (create_limiter config now) now n).2 = true) := by
  refine ⟨?_, ?_, rfl, ?_⟩
  · intro h
    simp [create_limiter, orTruthy, h, RateLimiter.init]
  · intro h
    simp [create_limiter, orTruthy, h, RateLimiter.init]
  · intro n hn
    apply noDelayCalls_all n (create_limiter config now) now rfl
    show (n : ℚ) ≤ ((create_limiter config now).burst : ℚ)
    exact_mod_cast hn

/-- Witness for C8: the all-unset configuration yields rate 60, burst 60, a
full bucket, and 60 immediate acquire calls. -/
theorem claim_C8_limiter_construction_witness :
    (create_limiter ⟨none, none, none, none, none⟩ 0).requests_per_minute = 60 ∧
    (create_limiter ⟨none, none, none, none, none⟩ 0).burst =
      (create_limiter ⟨none, none, none, none, none⟩ 0).requests_per_minute ∧
    (create_limiter ⟨none, none, none, none, none⟩ 0)._tokens =
      ((create_limiter ⟨none, none, none, none, none⟩ 0).burst : ℚ) ∧
    (noDelayCalls (create_limiter ⟨none, none, none, none, none⟩ 0) 0 60).2 = true :=
  ⟨(claim_C8_limiter_construction ⟨none, none, none, none, none⟩ 0).1 rfl,
   (claim_C8_limiter_construction ⟨none, none, none, none, none⟩ 0).2.1 rfl,
   (claim_C8_limiter_construction ⟨none, none, none, none, none⟩ 0).2.2.1,
   (claim_C8_limiter_construction ⟨none, none, none, none, none⟩ 0).2.2.2 60 (by decide)⟩

/-- Witness for the amended C1: a concrete callback invocation on a map
holding the freshly enqueued item. -/
theorem claim_C1_amended_monotonicity_witness :
    (progress_callback (setItem (fun _ => none) "u" (mkQueueItem sampleReq)) "u"
        sampleUpdate "u").map QueueItem.overall_progress_percent =
      some (max (mkQueueItem sampleReq).overall_progress_percent
        sampleUpdate.overall_progress) ∧
    (mkQueueItem sampleReq).overall_progress_percent ≤
      max (mkQueueItem sampleReq).overall_progress_percent sampleUpdate.overall_progress :=
  claim_C1_amended_monotonicity.1 (setItem (fun _ => none) "u" (mkQueueItem sampleReq))
    "u" sampleUpdate (mkQueueItem sampleReq) (by decide)

/-! ## Priority-queue ordering lemmas -/

theorem keyLE_refl (a : Entry) : keyLE a a := by
  unfold keyLE; omega

theorem keyLE_total (a b : Entry) : keyLE a b ∨ keyLE b a := by
  unfold keyLE; omega

theorem keyLE_trans (a b c : Entry) : keyLE a b → keyLE b c → keyLE a c := by
  unfold keyLE; omega

theorem popMinAux_length : ∀ (l : List Entry) (e : Entry),
    (popMinAux e l).2.length = l.length := by
  intro l
  induction l with
  | nil => intro e; rfl
  | cons x xs ih =>
      intro e
      simp only [popMinAux]
      by_cases h : keyLE e x
      · rw [if_pos h]
        simp [ih e]
      · rw [if_neg h]
        simp [ih x]

theorem popMinAux_perm : ∀ (l : List Entry) (e : Entry),
    ((popMinAux e l).1 :: (popMinAux e l).2).Perm (e :: l) := by
  intro l
  induction l with
  | nil => intro e; exact List.Perm.refl _
  | cons x xs ih =>
      intro e
      simp only [popMinAux]
      by_cases h : keyLE e x
      · rw [if_pos h]
        exact ((List.Perm.swap x _ _).trans ((ih e).cons x)).trans (List.Perm.swap e x xs)
      · rw [if_neg h]
        exact (List.Perm.swap e _ _).trans ((ih x).cons e)

theorem popMinAux_min : ∀ (l : List Entry) (e : Entry),
    ∀ x ∈ e :: l, keyLE (popMinAux e l).1 x := by
  intro l
  induction l with
  | nil =>
      intro e x hx
      rw [List.mem_singleton] at hx
      subst hx
      exact keyLE_refl x
  | cons y ys ih =>
      intro e x hx
      simp only [List.mem_cons] at hx
      by_cases h : keyLE e y
      · simp only [popMinAux, if_pos h]
        have hmin : ∀ z ∈ e :: ys, keyLE (popMinAux e ys).1 z := ih e
        have he : keyLE (popMinAux e ys).1 e := hmin e (List.mem_cons_self e ys)
        rcases hx with rfl | rfl | hx
        · exact he
        · exact keyLE_trans _ e x he h
        · exact hmin x (List.mem_cons_of_mem e hx)
      · have hy : keyLE y e := (keyLE_total e y).resolve_left h
        simp only [popMinAux, if_neg h]
        have hmin : ∀ z ∈ y :: ys, keyLE (popMinAux y ys).1 z := ih y
        have hhead : keyLE (popMinAux y ys).1 y := hmin y (List.mem_cons_self y ys)
        rcases hx with rfl | rfl | hx
        · exact keyLE_trans _ y x hhead hy
        · exact hhead
        · exact hmin x (List.mem_cons_of_mem y hx)

theorem drainFuel_perm : ∀ (fuel : Nat) (l : List Entry), l.length ≤ fuel →
    (drainFuel fuel l).Perm l := by
  intro fuel
  induction fuel with
  | zero =>
      intro l hl
      cases l with
      | nil => exact List.Perm.refl _
      | cons e es => simp at hl
  | succ fuel ih =>
      intro l hl
      cases l with
      | nil => exact List.Perm.refl _
      | cons e es =>
          show ((popMinAux e es).1 :: drainFuel fuel (popMinAux e es).2).Perm (e :: es)
          have hlen : (popMinAux e es).2.length ≤ fuel := by
            rw [popMinAux_length]
            have := hl
            simp only [List.length_cons] at this
            omega
          exact ((ih _ hlen).cons _).trans (popMinAux_perm es e)

theorem drainFuel_sorted : ∀ (fuel : Nat) (l : List Entry), l.length ≤ fuel →
    (drainFuel fuel l).Pairwise keyLE := by
  intro fuel
  induction fuel with
  | zero => intro l hl; exact List.Pairwise.nil
  | succ fuel ih =>
      intro l hl
      cases l with
      | nil => exact List.Pairwise.nil
      | cons e es =>
          show ((popMinAux e es).1 :: drainFuel fuel (popMinAux e es).2).Pairwise keyLE
          have hlen : (popMinAux e es).2.length ≤ fuel := by
            rw [popMinAux_length]
            have := hl
            simp only [List.length_cons] at this
            omega
          rw [List.pairwise_cons]
          refine ⟨?_, ih _ hlen⟩
          intro y hy
          have hy2 : y ∈ (popMinAux e es).2 := ((drainFuel_perm fuel _ hlen).mem_iff).mp hy
          have hy3 : y ∈ (popMinAux e es).1 :: (popMinAux e es).2 := List.mem_cons_of_mem _ hy2
          have hy4 : y ∈ e :: es := ((popMinAux_perm es e).mem_iff).mp hy3
          exact popMinAux_min es e y hy4

theorem add_to_queue_fields (s : QueueServiceState) (r : EnqueueRequest) :
    (add_to_queue s r).1._priority_queue =
      s._priority_queue ++ [(-r.priority, s._sequence + 1, mkQueueItem r)] ∧
    (add_to_queue s r).1._sequence = s._sequence + 1 :=
  ⟨rfl, rfl⟩

theorem addAll_queue : ∀ (reqs : List EnqueueRequest) (s : QueueServiceState),
    (addAll s reqs)._priority_queue = s._priority_queue ++ mkEntries s._sequence reqs ∧
    (addAll s reqs)._sequence = s._sequence + reqs.length := by
  intro reqs
  induction reqs with
  | nil => intro s; exact ⟨(List.append_nil _).symm, rfl⟩
  | cons r rs ih =>
      intro s
      show (addAll (add_to_queue s r).1 rs)._priority_queue = _ ∧
        (addAll (add_to_queue s r).1 rs)._sequence = _
      obtain ⟨hq, hs⟩ := ih (add_to_queue s r).1
      constructor
      · rw [hq, (add_to_queue_fields s r).1, (add_to_queue_fields s r).2,
          List.append_assoc]
        rfl
      · rw [hs, (add_to_queue_fields s r).2]
        simp [Nat.add_assoc, Nat.add_comm 1 rs.length]

theorem mkEntries_key : ∀ (reqs : List EnqueueRequest) (s0 : Nat),
    ∀ x ∈ mkEntries s0 reqs, x.1 = -(x.2.2.priority : Int) := by
  intro reqs
  induction reqs with
  | nil => intro s0 x hx; simp [mkEntries] at hx
  | cons r rs ih =>
      intro s0 x hx
      simp only [mkEntries, List.mem_cons] at hx
      rcases hx with rfl | hx
      · rfl
      · exact ih (s0 + 1) x hx

theorem mkEntries_seq_ge : ∀ (reqs : List EnqueueRequest) (s0 : Nat),
    ∀ x ∈ mkEntries s0 reqs, s0 + 1 ≤ x.2.1 := by
  intro reqs
  induction reqs with
  | nil => intro s0 x hx; simp [mkEntries] at hx
  | cons r rs ih =>
      intro s0 x hx
      simp only [mkEntries, List.mem_cons] at hx
      rcases hx with rfl | hx
      · exact Nat.le_refl _
      · have := ih (s0 + 1) x hx
        omega

theorem mkEntries_seq_lt : ∀ (reqs : List EnqueueRequest) (s0 : Nat),
    (mkEntries s0 reqs).Pairwise (fun a b => a.2.1 < b.2.1) := by
  intro reqs
  induction reqs with
  | nil => intro s0; exact List.Pairwise.nil
  | cons r rs ih =>
      intro s0
      simp only [mkEntries]
      rw [List.pairwise_cons]
      refine ⟨?_, ih (s0 + 1)⟩
      intro y hy
      have := mkEntries_seq_ge rs (s0 + 1) y hy
      show s0 + 1 < y.2.1
      omega

/-- C2: for every sequence of enqueues from the initial scheduler state,
the pushed entries carry the key `(-priority, sequence)` with sequence
numbers strictly increasing (hence unique) in enqueue order; draining pops
a permutation of the pushed entries in ascending key order, which is
descending-priority-then-FIFO order: along the drain order priorities are
non-increasing, and two entries of equal priority are popped in strictly
increasing sequence (that is, enqueue) order. -/
theorem claim_C2_priority_fifo_order (reqs : List EnqueueRequest) :
    ((addAll initState reqs)._priority_queue).Pairwise (fun a b => a.2.1 < b.2.1) ∧
    (∀ x ∈ (addAll initState reqs)._priority_queue, x.1 = -(x.2.2.priority : Int)) ∧
    (drainEntries (addAll initState reqs)._priority_queue).Perm
      (addAll initState reqs)._priority_queue ∧
    (drainEntries (addAll initState reqs)._priority_queue).Pairwise keyLE ∧
    (drainEntries (addAll initState reqs)._priority_queue).Pairwise
      (fun a b => b.2.2.priority ≤ a.2.2.priority ∧
        (a.2.2.priority = b.2.2.priority → a.2.1 < b.2.1)) := by
  have hq : (addAll initState reqs)._priority_queue = mkEntries 0 reqs := by
    have h := (addAll_queue reqs initState).1
    simpa [initState] using h
  have hlt : ((addAll initState reqs)._priority_queue).Pairwise
      (fun a b => a.2.1 < b.2.1) := by
    rw [hq]; exact mkEntries_seq_lt reqs 0
  have hkey : ∀ x ∈ (addAll initState reqs)._priority_queue,
      x.1 = -(x.2.2.priority : Int) := by
    rw [hq]; exact mkEntries_key reqs 0
  have hperm : (drainEntries (addAll initState reqs)._priority_queue).Perm
      (addAll initState reqs)._priority_queue :=
    drainFuel_perm _ _ (Nat.le_refl _)
  have hsorted : (drainEntries (addAll initState reqs)._priority_queue).Pairwise keyLE :=
    drainFuel_sorted _ _ (Nat.le_refl _)
  have hne : (drainEntries (addAll initState reqs)._priority_queue).Pairwise
      (fun a b => a.2.1 ≠ b.2.1) :=
    (List.Perm.pairwise_iff (fun h => h.symm) hperm).mpr
      (hlt.imp (fun h => Nat.ne_of_lt h))
  refine ⟨hlt, hkey, hperm, hsorted, ?_⟩
  refine (hsorted.and hne).imp_of_mem ?_
  intro a b ha hb hab
  have hka : a.1 = -(a.2.2.priority : Int) := hkey a (hperm.mem_iff.mp ha)
  have hkb : b.1 = -(b.2.2.priority : Int) := hkey b (hperm.mem_iff.mp hb)
  obtain ⟨hle, hne2⟩ := hab
  unfold keyLE at hle
  omega

/-- Witness for C2: in the queue built by two concrete enqueues, the first
pushed entry carries the key `(-priority, 1)`. -/
theorem claim_C2_priority_fifo_order_witness :
    ((-sampleReq.priority, 1, mkQueueItem sampleReq) : Entry).1 =
      -(((-sampleReq.priority, 1, mkQueueItem sampleReq) : Entry).2.2.priority : Int) :=
  (claim_C2_priority_fifo_order [sampleReq, sampleReq2]).2.1
    (-sampleReq.priority, 1, mkQueueItem sampleReq) (by decide)

end Sage
